import Mathlib

/-
Verification of the CHULUBME ECS runtime (src/Assets/ecs.h, namespace CHULUBME).

The C++ runtime is shallowly embedded as pure Lean functions over an explicit
state record `EMState` that mirrors the private members of `EntityManager`.
The `std::unordered_map` members are modelled as association lists: an
assignment to an existing key updates the entry in place, and a brand-new key
links its node at the front of the element list, matching the behaviour of the
hash-table implementations shipped with the toolchains named in the
repository's build guide (GCC >= 8, Clang >= 7), where iteration visits
later-inserted elements first until a rehash. `std::set` members are modelled
as duplicate-free lists; no claim observes the relative order of two elements
of the same `std::set`. `std::queue` is a list with `push` appending at the
tail and `pop` taking the head. The virtual hooks (`Component::Initialize`,
`Component::Finalize`, `System::OnEntityAdded`, `System::OnEntityRemoved`) are
no-ops on the base classes; their invocations are recorded in an event log so
that theorems can talk about which hooks fired. Component instances are
identified by an allocation tag (`nextTag`) standing for the pointer returned
by `AddComponent`.
-/

namespace ECS

abbrev EntityID := Nat
abbrev ComponentID := Nat
abbrev SystemID := Nat

/-- constexpr std::size_t MAX_COMPONENTS = 64 (ecs.h line 28). -/
def MAX_COMPONENTS : Nat := 64

/-- constexpr std::size_t MAX_ENTITIES = 10000 (ecs.h line 29). -/
def MAX_ENTITIES : Nat := 10000

/-! ### Association lists modelling std::unordered_map -/

/-- Lookup in an association list (models `unordered_map::at` / `find`):
returns the value of the first entry with the given key. -/
def afind {α : Type} : List (Nat × α) → Nat → Option α
  | [], _ => none
  | (k', v) :: rest, k => if k' = k then some v else afind rest k

/-- Update the first entry holding the key, appending if no entry exists.
Only called below when the key is known to be present. -/
def ains {α : Type} : List (Nat × α) → Nat → α → List (Nat × α)
  | [], k, v => [(k, v)]
  | (k', v') :: rest, k, v =>
      if k' = k then (k, v) :: rest else (k', v') :: ains rest k v

/-- Map write `m[k] = v` (also the write performed by `operator[]`): in-place
update when the key exists, otherwise a new node linked at the front of the
element list (the behaviour of the GCC and Clang standard-library hash
tables). -/
def aput {α : Type} (l : List (Nat × α)) (k : Nat) (v : α) : List (Nat × α) :=
  if (afind l k).isSome then ains l k v else (k, v) :: l

/-- Erase by key (models `unordered_map::erase(key)`). -/
def aerase {α : Type} (l : List (Nat × α)) (k : Nat) : List (Nat × α) :=
  l.filter (fun p => decide (p.1 ≠ k))

/-! ### Duplicate-free lists modelling std::set -/

/-- Models `std::set::insert`: no-op when the element is present. -/
def setInsert (e : Nat) (l : List Nat) : List Nat :=
  if e ∈ l then l else l ++ [e]

/-- Models `std::set::erase(key)`; the caller `System::RemoveEntity` tests
membership separately (`erase` returns the number of erased elements). -/
def setErase (e : Nat) (l : List Nat) : List Nat :=
  l.filter (fun x => decide (x ≠ e))

/-! ### Component masks (std::bitset<MAX_COMPONENTS>) as sets of bit indices -/

/-- bitset::set(cid). The C++ call throws std::out_of_range for
cid >= MAX_COMPONENTS; theorems carry that bound as a hypothesis. -/
def mset (cid : ComponentID) (m : List Nat) : List Nat :=
  if cid ∈ m then m else cid :: m

/-- bitset::reset(cid). -/
def mreset (cid : ComponentID) (m : List Nat) : List Nat :=
  m.filter (fun x => decide (x ≠ cid))

/-- bitset::test(cid). -/
def mtest (cid : ComponentID) (m : List Nat) : Bool :=
  decide (cid ∈ m)

/-- The subscription test `(entityMask & systemMask) == systemMask`
(ecs.h lines 346, 377, 419): every required bit is set in the entity mask. -/
def maskSatisfies (m req : List Nat) : Bool :=
  req.all (fun c => decide (c ∈ m))

/-! ### The EntityManager state and its operations -/

/-- Hook invocations observable through the virtual methods of `Component` and
`System`. All four hooks are no-ops on the base classes (ecs.h lines 42, 45,
115, 118), so logging suffices to model them. `tag` identifies the component
instance (the pointer `AddComponent` returned). -/
inductive Event where
  | sysInit (sid : SystemID)
  | init (e : EntityID) (cid : ComponentID) (tag : Nat)
  | finalize (e : EntityID) (cid : ComponentID) (tag : Nat)
  | added (sid : SystemID) (e : EntityID)
  | removed (sid : SystemID) (e : EntityID)
  deriving DecidableEq

/-- A registered system: `m_componentMask` (as the list of required component
ids), `m_entities` (the subscriber set) and `m_active`. -/
structure Sys where
  req : List Nat
  entities : List EntityID
  active : Bool
  deriving DecidableEq

/-- `System::AddEntity` (ecs.h lines 270-273): inserts into the set and calls
`OnEntityAdded` unconditionally, even when the entity was already present.
The second result is whether the hook fired (always true). -/
def sysAddEntity (sy : Sys) (e : EntityID) : Sys × Bool :=
  ({ sy with entities := setInsert e sy.entities }, true)

/-- `System::RemoveEntity` (ecs.h lines 275-279): erases from the set and
calls `OnEntityRemoved` only when `erase` removed something. The second
result is whether the hook fired. -/
def sysRemoveEntity (sy : Sys) (e : EntityID) : Sys × Bool :=
  ({ sy with entities := setErase e sy.entities }, decide (e ∈ sy.entities))

/-- The private state of `EntityManager` (ecs.h lines 149-174), plus the
allocation counter `nextTag` for component-instance identity and the hook
event log. -/
structure EMState where
  entityMasks : List (EntityID × List Nat)
  entityComponents : List (EntityID × List (ComponentID × Nat))
  availableEntityIDs : List EntityID
  nextEntityID : EntityID
  systems : List (SystemID × Sys)
  entitiesToDestroy : List EntityID
  nextTag : Nat
  events : List Event
  deriving DecidableEq

/-- A freshly constructed `EntityManager` (ecs.h lines 287-288). -/
def emInit : EMState :=
  { entityMasks := [], entityComponents := [], availableEntityIDs := [],
    nextEntityID := 0, systems := [], entitiesToDestroy := [], nextTag := 0,
    events := [] }

/-- `EntityManager::CreateEntity` (ecs.h lines 290-304): reuse a recycled id
if available, else `m_nextEntityID++`; then `m_entityMasks[id].reset()` and
`m_entityComponents[id].clear()`. No check against MAX_ENTITIES is performed
and no system subscription is re-evaluated. `m_nextEntityID` is a uint32;
no claim drives it anywhere near 2^32, so it is modelled as Nat. -/
def createEntity (s : EMState) : EntityID × EMState :=
  match s.availableEntityIDs with
  | id :: rest =>
      (id, { s with availableEntityIDs := rest,
                    entityMasks := aput s.entityMasks id [],
                    entityComponents := aput s.entityComponents id [] })
  | [] =>
      (s.nextEntityID,
       { s with nextEntityID := s.nextEntityID + 1,
                entityMasks := aput s.entityMasks s.nextEntityID [],
                entityComponents := aput s.entityComponents s.nextEntityID [] })

/-- `EntityManager::DestroyEntity` (ecs.h lines 306-308): only inserts the id
into the pending set `m_entitiesToDestroy`. -/
def destroyEntity (s : EMState) (e : EntityID) : EMState :=
  { s with entitiesToDestroy := setInsert e s.entitiesToDestroy }

/-- The body of the loop in `EntityManager::ProcessDestructions` (ecs.h lines
311-323) for one pending entity: `RemoveEntity` on every system (the hook
fires only where the entity was present), erase its components and mask, and
push the id onto the recycled pool. `Component::Finalize` is NOT invoked:
the destructor of the `shared_ptr` runs, but the finalize hook is only called
from `RemoveComponent`. -/
def destroyOne (s : EMState) (e : EntityID) : EMState :=
  { s with
    systems := s.systems.map (fun p => (p.1, (sysRemoveEntity p.2 e).1)),
    events := s.events ++ s.systems.filterMap (fun p =>
      if (sysRemoveEntity p.2 e).2 then some (Event.removed p.1 e) else none),
    entityComponents := aerase s.entityComponents e,
    entityMasks := aerase s.entityMasks e,
    availableEntityIDs := s.availableEntityIDs ++ [e] }

/-- `EntityManager::ProcessDestructions` (ecs.h lines 310-326): process every
pending id, then clear the pending set. -/
def processDestructions (s : EMState) : EMState :=
  let s' := s.entitiesToDestroy.foldl destroyOne s
  { s' with entitiesToDestroy := [] }

/-- `EntityManager::AddComponent` (ecs.h lines 328-352): store the new
instance under `m_entityComponents[entity][componentID]` (note: `operator[]`
creates entries for an unknown entity instead of failing), set the mask bit,
invoke the component's initialization hook, then call `AddEntity` on every
system whose mask is satisfied — regardless of whether the entity was already
subscribed. Returns the tag identifying the instance (the returned pointer).
The bound `cid < MAX_COMPONENTS` required by `bitset::set` is carried as a
hypothesis by the theorems. -/
def addComponent (s : EMState) (e : EntityID) (cid : ComponentID) :
    Nat × EMState :=
  let tag := s.nextTag
  let cm := (afind s.entityComponents e).getD []
  let m := (afind s.entityMasks e).getD []
  let m' := mset cid m
  (tag,
   { s with
     entityComponents := aput s.entityComponents e (aput cm cid tag),
     entityMasks := aput s.entityMasks e m',
     systems := s.systems.map (fun p =>
       if maskSatisfies m' p.2.req then (p.1, (sysAddEntity p.2 e).1) else p),
     events := (s.events ++ [Event.init e cid tag]) ++
       s.systems.filterMap (fun p =>
         if maskSatisfies m' p.2.req then some (Event.added p.1 e) else none),
     nextTag := tag + 1 })

/-- `EntityManager::RemoveComponent` (ecs.h lines 354-381): if the mask bit
is clear, return (but `m_entityMasks[entity]` has already default-created an
empty mask for an unknown entity); otherwise invoke `Finalize` on the stored
instance, erase it, clear the mask bit and call `RemoveEntity` on every
system whose mask is no longer satisfied. -/
def removeComponent (s : EMState) (e : EntityID) (cid : ComponentID) :
    EMState :=
  let m := (afind s.entityMasks e).getD []
  if mtest cid m = false then
    { s with entityMasks := aput s.entityMasks e m }
  else
    let cm := (afind s.entityComponents e).getD []
    let tag := (afind cm cid).getD 0
    let m' := mreset cid m
    { s with
      entityComponents := aput s.entityComponents e (aerase cm cid),
      entityMasks := aput s.entityMasks e m',
      systems := s.systems.map (fun p =>
        if maskSatisfies m' p.2.req then p else (p.1, (sysRemoveEntity p.2 e).1)),
      events := (s.events ++ [Event.finalize e cid tag]) ++
        s.systems.filterMap (fun p =>
          if maskSatisfies m' p.2.req then none
          else if (sysRemoveEntity p.2 e).2 then some (Event.removed p.1 e)
          else none) }

/-- `EntityManager::HasComponent` (ecs.h lines 383-387):
`m_entityMasks.at(entity).test(cid)`. `none` models the std::out_of_range
thrown by `at` for an unknown entity. -/
def hasComponent (s : EMState) (e : EntityID) (cid : ComponentID) :
    Option Bool :=
  (afind s.entityMasks e).map (fun m => mtest cid m)

/-- `EntityManager::GetComponent` (ecs.h lines 389-399): `at` throws for an
unknown entity (outer `none`); a clear mask bit yields `nullptr`
(`some none`); otherwise the stored instance is returned (`some (some tag)`).
Any `at` miss maps to the outer `none`. -/
def getComponent (s : EMState) (e : EntityID) (cid : ComponentID) :
    Option (Option Nat) :=
  match afind s.entityMasks e with
  | none => none
  | some m =>
      if mtest cid m = false then some none
      else
        match afind s.entityComponents e with
        | none => none
        | some cm =>
            match afind cm cid with
            | none => none
            | some tag => some (some tag)

/-- `EntityManager::GetComponentMask` (ecs.h lines 455-457):
`m_entityMasks.at(entity)`; `none` models the unknown-entity exception. -/
def getComponentMask (s : EMState) (e : EntityID) : Option (List Nat) :=
  afind s.entityMasks e

/-- `EntityManager::RegisterSystem` (ecs.h lines 401-425): construct the
system (its constructor declares the required mask via `RequireComponent`),
store it under its system-type id, invoke its initialization hook, then scan
all existing entities and `AddEntity` every one whose mask satisfies the
requirement. -/
def registerSystem (s : EMState) (sid : SystemID) (req : List Nat) : EMState :=
  let scanned := (s.entityMasks.filter
    (fun p => maskSatisfies p.2 req)).map (fun p => p.1)
  { s with
    systems := aput s.systems sid { req := req, entities := scanned, active := true },
    events := (s.events ++ [Event.sysInit sid]) ++
      scanned.map (fun e => Event.added sid e) }

/-- `System::SetActive` (ecs.h line 127) applied to a registered system. -/
def setSystemActive (s : EMState) (sid : SystemID) (a : Bool) : EMState :=
  match afind s.systems sid with
  | some sy => { s with systems := aput s.systems sid { sy with active := a } }
  | none => s

/-- `EntityManager::UpdateSystems` (ecs.h lines 439-445): iterate `m_systems`
in container order and invoke `Update(deltaTime)` on each active system; the
base `Update` mutates nothing, so the observable is the invocation list. -/
def updateSystems (s : EMState) : List SystemID :=
  s.systems.filterMap (fun p => if p.2.active then some p.1 else none)

/-- `EntityManager::RenderSystems` (ecs.h lines 447-453): same loop as
`UpdateSystems`, invoking `Render`. -/
def renderSystems (s : EMState) : List SystemID :=
  s.systems.filterMap (fun p => if p.2.active then some p.1 else none)

/-! ### The type-identifier registry -/

/-- The state behind `GetComponentTypeID` (ecs.h lines 459-463): the static
counter `s_componentTypeCounter` plus the memo table realised by the per-type
`static const` local. Distinct C++ types are named by Nat. -/
structure TypeCounter where
  counter : Nat
  table : List (Nat × Nat)
  deriving DecidableEq

def typeCounterInit : TypeCounter := { counter := 0, table := [] }

/-- `GetComponentTypeID<T>`: `static const ComponentID typeID =
s_componentTypeCounter++;` — first use assigns the next counter value,
memoised per type, with no capacity check of any kind. -/
def getComponentTypeID (r : TypeCounter) (ty : Nat) : Nat × TypeCounter :=
  match afind r.table ty with
  | some i => (i, r)
  | none => (r.counter,
      { counter := r.counter + 1, table := aput r.table ty r.counter })

/-- First-use registration of a list of types, in order. -/
def registerTypes (r : TypeCounter) : List Nat → TypeCounter
  | [] => r
  | t :: ts => registerTypes (getComponentTypeID r t).2 ts

/-! ### Operation traces -/

/-- One call of the public `EntityManager` API. -/
inductive Op where
  | create
  | destroy (e : EntityID)
  | flush
  | attach (e : EntityID) (cid : ComponentID)
  | detach (e : EntityID) (cid : ComponentID)
  | register (sid : SystemID) (req : List Nat)
  deriving DecidableEq

def applyOp (s : EMState) : Op → EMState
  | .create => (createEntity s).2
  | .destroy e => destroyEntity s e
  | .flush => processDestructions s
  | .attach e cid => (addComponent s e cid).2
  | .detach e cid => removeComponent s e cid
  | .register sid req => registerSystem s sid req

/-- The caller contract of section 6 of the specification plus the defined
range of the bitset operations: attach/detach/destroy are applied only to
live ids (ids obtained from `create` and not yet flushed) and component ids
stay below the mask capacity. -/
def opLegal (s : EMState) : Op → Bool
  | .create => true
  | .destroy e => (afind s.entityMasks e).isSome
  | .flush => true
  | .attach e cid => (afind s.entityMasks e).isSome && decide (cid < MAX_COMPONENTS)
  | .detach e cid => (afind s.entityMasks e).isSome && decide (cid < MAX_COMPONENTS)
  | .register _sid req => req.all (fun c => decide (c < MAX_COMPONENTS))

def legalTrace (s : EMState) : List Op → Bool
  | [] => true
  | op :: ops => opLegal s op && legalTrace (applyOp s op) ops

def runOps (ops : List Op) : EMState :=
  ops.foldl applyOp emInit

/-- Apply n consecutive `CreateEntity` calls. -/
def createN : Nat → EMState → EMState
  | 0, s => s
  | n + 1, s => createN n (createEntity s).2

/-- The number of live entity ids: the key count of `m_entityMasks`. -/
def liveCount (s : EMState) : Nat :=
  s.entityMasks.length

/-- The reachability invariant of the EntityManager under the caller contract:
subscriber sets are sound (every subscriber is live and satisfies the
system's requirement) and complete for systems with a nonempty requirement;
the recycled pool holds only dead, unsubscribed, duplicate-free ids; all
recorded ids are below the high-water mark `m_nextEntityID`; pending ids are
live. -/
structure InvFull (s : EMState) : Prop where
  ndkMasks : (s.entityMasks.map Prod.fst).Nodup
  sound : ∀ sid sy, (sid, sy) ∈ s.systems → ∀ e, e ∈ sy.entities →
    ∃ m, afind s.entityMasks e = some m ∧ maskSatisfies m sy.req = true
  complete : ∀ sid sy, (sid, sy) ∈ s.systems → sy.req ≠ [] → ∀ e m,
    afind s.entityMasks e = some m → maskSatisfies m sy.req = true →
    e ∈ sy.entities
  poolDead : ∀ e ∈ s.availableEntityIDs, afind s.entityMasks e = none
  poolFree : ∀ e ∈ s.availableEntityIDs, ∀ sid sy, (sid, sy) ∈ s.systems →
    e ∉ sy.entities
  poolNodup : s.availableEntityIDs.Nodup
  keysBound : ∀ p ∈ s.entityMasks, p.1 < s.nextEntityID
  poolBound : ∀ e ∈ s.availableEntityIDs, e < s.nextEntityID
  pendBound : ∀ e ∈ s.entitiesToDestroy, e < s.nextEntityID
  pendLive : ∀ e ∈ s.entitiesToDestroy, (afind s.entityMasks e).isSome
  pendNodup : s.entitiesToDestroy.Nodup

/-! ### Lemmas about the container models -/

theorem afind_ains {α : Type} (l : List (Nat × α)) (k : Nat) (v : α) (k' : Nat) :
    afind (ains l k v) k' = if k = k' then some v else afind l k' := by
  induction l with
  | nil => by_cases h : k = k' <;> simp [ains, afind, h]
  | cons p rest ih =>
    obtain ⟨pk, pv⟩ := p
    by_cases hpk : pk = k
    · subst hpk
      by_cases h : pk = k' <;> simp [ains, afind, h]
    · by_cases h : pk = k'
      · subst h
        have : ¬ k = pk := fun hc => hpk hc.symm
        simp [ains, afind, hpk, this]
      · simp [ains, afind, hpk, h, ih]

theorem afind_aput {α : Type} (l : List (Nat × α)) (k : Nat) (v : α) (k' : Nat) :
    afind (aput l k v) k' = if k = k' then some v else afind l k' := by
  cases hf : afind l k with
  | some w =>
    have : aput l k v = ains l k v := by simp [aput, hf]
    rw [this]
    exact afind_ains l k v k'
  | none =>
    have : aput l k v = (k, v) :: l := by simp [aput, hf]
    rw [this]
    by_cases h : k = k'
    · subst h; simp [afind]
    · simp [afind, h]

theorem ains_self {α : Type} {l : List (Nat × α)} {k : Nat} {v : α}
    (h : afind l k = some v) : ains l k v = l := by
  induction l with
  | nil => simp [afind] at h
  | cons p rest ih =>
    obtain ⟨pk, pv⟩ := p
    by_cases hpk : pk = k
    · subst hpk
      simp [afind] at h
      simp [ains, h]
    · simp [afind, hpk] at h
      simp [ains, hpk, ih h]

theorem aput_self {α : Type} {l : List (Nat × α)} {k : Nat} {v : α}
    (h : afind l k = some v) : aput l k v = l := by
  have : aput l k v = ains l k v := by simp [aput, h]
  rw [this]
  exact ains_self h

theorem mem_ains {α : Type} {l : List (Nat × α)} {k : Nat} {v : α} {p : Nat × α}
    (h : p ∈ ains l k v) : p = (k, v) ∨ p ∈ l := by
  induction l with
  | nil => simp [ains] at h; simp [h]
  | cons q rest ih =>
    obtain ⟨qk, qv⟩ := q
    by_cases hqk : qk = k
    · subst hqk
      simp [ains] at h
      rcases h with h | h
      · exact Or.inl h
      · exact Or.inr (List.mem_cons_of_mem _ h)
    · simp [ains, hqk] at h
      rcases h with h | h
      · exact Or.inr (by simp [h])
      · rcases ih h with h' | h'
        · exact Or.inl h'
        · exact Or.inr (List.mem_cons_of_mem _ h')

theorem mem_aput {α : Type} {l : List (Nat × α)} {k : Nat} {v : α} {p : Nat × α}
    (h : p ∈ aput l k v) : p = (k, v) ∨ p ∈ l := by
  cases hf : afind l k with
  | some w =>
    have he : aput l k v = ains l k v := by simp [aput, hf]
    rw [he] at h
    exact mem_ains h
  | none =>
    have he : aput l k v = (k, v) :: l := by simp [aput, hf]
    rw [he] at h
    exact List.mem_cons.mp h

theorem mem_of_afind {α : Type} {l : List (Nat × α)} {k : Nat} {v : α}
    (h : afind l k = some v) : (k, v) ∈ l := by
  induction l with
  | nil => simp [afind] at h
  | cons p rest ih =>
    obtain ⟨pk, pv⟩ := p
    by_cases hpk : pk = k
    · subst hpk
      simp [afind] at h
      simp [h]
    · simp [afind, hpk] at h
      exact List.mem_cons_of_mem _ (ih h)

theorem afind_eq_none {α : Type} {l : List (Nat × α)} {k : Nat} :
    afind l k = none ↔ k ∉ l.map Prod.fst := by
  induction l with
  | nil => simp [afind]
  | cons p rest ih =>
    obtain ⟨pk, pv⟩ := p
    by_cases hpk : pk = k
    · subst hpk; simp [afind]
    · have h1 : afind ((pk, pv) :: rest) k = afind rest k := by simp [afind, hpk]
      rw [h1, ih]
      simp only [List.map_cons, List.mem_cons]
      constructor
      · intro h hc
        rcases hc with hc | hc
        · exact hpk hc.symm
        · exact h hc
      · intro h hc
        exact h (Or.inr hc)

theorem afind_of_mem_ndk {α : Type} {l : List (Nat × α)} {k : Nat} {v : α}
    (hnd : (l.map Prod.fst).Nodup) (h : (k, v) ∈ l) : afind l k = some v := by
  induction l with
  | nil => simp at h
  | cons p rest ih =>
    obtain ⟨pk, pv⟩ := p
    simp only [List.map_cons, List.nodup_cons] at hnd
    rcases List.mem_cons.mp h with h' | h'
    · injection h' with h1 h2
      subst h1; subst h2
      simp [afind]
    · have hk : ¬ pk = k := by
        intro he
        subst he
        exact hnd.1 (List.mem_map.mpr ⟨(pk, v), h', rfl⟩)
      have h1 : afind ((pk, pv) :: rest) k = afind rest k := by simp [afind, hk]
      rw [h1]
      exact ih hnd.2 h'

theorem keys_ains_of_found {α : Type} {l : List (Nat × α)} {k : Nat} {w : α} (v : α)
    (h : afind l k = some w) : (ains l k v).map Prod.fst = l.map Prod.fst := by
  induction l with
  | nil => simp [afind] at h
  | cons p rest ih =>
    obtain ⟨pk, pv⟩ := p
    by_cases hpk : pk = k
    · subst hpk; simp [ains]
    · simp [afind, hpk] at h
      simp [ains, hpk, ih h]

theorem ndk_aput {α : Type} {l : List (Nat × α)} (k : Nat) (v : α)
    (hnd : (l.map Prod.fst).Nodup) : ((aput l k v).map Prod.fst).Nodup := by
  cases hf : afind l k with
  | some w =>
    have he : aput l k v = ains l k v := by simp [aput, hf]
    rw [he, keys_ains_of_found v hf]
    exact hnd
  | none =>
    have he : aput l k v = (k, v) :: l := by simp [aput, hf]
    rw [he]
    simp only [List.map_cons, List.nodup_cons]
    exact ⟨afind_eq_none.mp hf, hnd⟩

theorem afind_aerase_self {α : Type} (l : List (Nat × α)) (k : Nat) :
    afind (aerase l k) k = none := by
  induction l with
  | nil => simp [aerase, afind]
  | cons p rest ih =>
    obtain ⟨pk, pv⟩ := p
    by_cases hpk : pk = k
    · subst hpk; simpa [aerase] using ih
    · simpa [aerase, afind, hpk] using ih

theorem afind_aerase_ne {α : Type} (l : List (Nat × α)) (k k' : Nat) (h : k' ≠ k) :
    afind (aerase l k) k' = afind l k' := by
  induction l with
  | nil => simp [aerase, afind]
  | cons p rest ih =>
    obtain ⟨pk, pv⟩ := p
    by_cases hpk : pk = k
    · subst hpk
      have : ¬ pk = k' := fun hc => h hc.symm
      simpa [aerase, afind, this] using ih
    · by_cases hk' : pk = k'
      · subst hk'; simp [aerase, afind, hpk]
      · simpa [aerase, afind, hpk, hk'] using ih

theorem aerase_none {α : Type} {l : List (Nat × α)} {k' : Nat} (k : Nat)
    (h : afind l k' = none) : afind (aerase l k) k' = none := by
  by_cases hk : k' = k
  · subst hk; exact afind_aerase_self l k'
  · rw [afind_aerase_ne l k k' hk]; exact h

theorem mem_aerase {α : Type} {l : List (Nat × α)} {k : Nat} {p : Nat × α}
    (h : p ∈ aerase l k) : p ∈ l := by
  exact List.mem_of_mem_filter h

theorem ndk_aerase {α : Type} {l : List (Nat × α)} (k : Nat)
    (hnd : (l.map Prod.fst).Nodup) : ((aerase l k).map Prod.fst).Nodup := by
  have hsub : List.Sublist ((aerase l k).map Prod.fst) (l.map Prod.fst) :=
    List.Sublist.map Prod.fst (List.filter_sublist l)
  exact hnd.sublist hsub

theorem mem_setInsert {a e : Nat} {l : List Nat} :
    a ∈ setInsert e l ↔ a = e ∨ a ∈ l := by
  unfold setInsert
  by_cases h : e ∈ l
  · simp [h]
    intro he; subst he; exact h
  · simp [h, or_comm]

theorem setInsert_self (e : Nat) (l : List Nat) : e ∈ setInsert e l := by
  rw [mem_setInsert]; exact Or.inl rfl

theorem setInsert_idem (e : Nat) (l : List Nat) :
    setInsert e (setInsert e l) = setInsert e l := by
  unfold setInsert
  by_cases h : e ∈ l <;> simp [h]

theorem nodup_setInsert (e : Nat) {l : List Nat} (h : l.Nodup) :
    (setInsert e l).Nodup := by
  unfold setInsert
  by_cases hm : e ∈ l
  · simp [hm, h]
  · simp only [hm, if_false]
    rw [List.nodup_append]
    refine ⟨h, List.nodup_singleton e, ?_⟩
    intro a hal hae
    rw [List.mem_singleton] at hae
    subst hae
    exact hm hal

theorem mem_setErase {a e : Nat} {l : List Nat} :
    a ∈ setErase e l ↔ a ∈ l ∧ a ≠ e := by
  simp [setErase]

theorem mtest_iff {cid : ComponentID} {m : List Nat} :
    mtest cid m = true ↔ cid ∈ m := by
  simp [mtest]

theorem mtest_mset_self (cid : ComponentID) (m : List Nat) :
    mtest cid (mset cid m) = true := by
  unfold mset
  by_cases h : cid ∈ m <;> simp [mtest, h]

theorem mtest_mreset_self (cid : ComponentID) (m : List Nat) :
    mtest cid (mreset cid m) = false := by
  simp [mtest, mreset]

theorem mem_mset {a cid : Nat} {m : List Nat} :
    a ∈ mset cid m ↔ a = cid ∨ a ∈ m := by
  unfold mset
  by_cases h : cid ∈ m
  · simp [h]
    intro he; subst he; exact h
  · simp [h]

theorem mem_mreset {a cid : Nat} {m : List Nat} :
    a ∈ mreset cid m ↔ a ∈ m ∧ a ≠ cid := by
  simp [mreset]

theorem maskSatisfies_iff {m req : List Nat} :
    maskSatisfies m req = true ↔ ∀ c ∈ req, c ∈ m := by
  simp [maskSatisfies]

theorem maskSatisfies_mono {m m' req : List Nat}
    (hsub : ∀ x ∈ m, x ∈ m') (h : maskSatisfies m req = true) :
    maskSatisfies m' req = true := by
  rw [maskSatisfies_iff] at h ⊢
  exact fun c hc => hsub c (h c hc)

theorem maskSatisfies_nil_req (m : List Nat) : maskSatisfies m [] = true := by
  simp [maskSatisfies]

theorem maskSatisfies_nil_mask {req : List Nat}
    (h : maskSatisfies [] req = true) : req = [] := by
  rw [maskSatisfies_iff] at h
  cases req with
  | nil => rfl
  | cons c cs => exact absurd (h c (by simp)) (by simp)

/-! ### Behaviour of the destruction flush on the mask table -/

theorem flush_masks_none (pend : List EntityID) : ∀ (s : EMState) (e : EntityID),
    (afind s.entityMasks e = none ∨ e ∈ pend) →
    afind (pend.foldl destroyOne s).entityMasks e = none := by
  induction pend with
  | nil =>
    intro s e h
    rcases h with h | h
    · exact h
    · simp at h
  | cons x xs ih =>
    intro s e h
    simp only [List.foldl_cons]
    apply ih
    have hde : (destroyOne s x).entityMasks = aerase s.entityMasks x := rfl
    rcases h with h | h
    · left
      rw [hde]
      exact aerase_none x h
    · rcases List.mem_cons.mp h with h | h
      · subst h
        left
        rw [hde]
        exact afind_aerase_self s.entityMasks e
      · right
        exact h

/-! ### Entity creation never checks MAX_ENTITIES -/

theorem createN_len : ∀ (n : Nat) (s : EMState),
    s.availableEntityIDs = [] →
    (∀ p ∈ s.entityMasks, p.1 < s.nextEntityID) →
    liveCount (createN n s) = liveCount s + n := by
  intro n
  induction n with
  | zero =>
    intro s _ _
    simp [createN]
  | succ n ih =>
    intro s h1 h2
    have hnone : afind s.entityMasks s.nextEntityID = none := by
      cases hf : afind s.entityMasks s.nextEntityID with
      | none => rfl
      | some m =>
        have := h2 _ (mem_of_afind hf)
        exact absurd this (lt_irrefl _)
    have hs2 : (createEntity s).2 =
        { s with nextEntityID := s.nextEntityID + 1,
                 entityMasks := aput s.entityMasks s.nextEntityID [],
                 entityComponents := aput s.entityComponents s.nextEntityID [] } := by
      simp [createEntity, h1]
    have hput : aput s.entityMasks s.nextEntityID ([] : List Nat) =
        (s.nextEntityID, []) :: s.entityMasks := by
      simp [aput, hnone]
    have hcn : createN (n + 1) s = createN n (createEntity s).2 := rfl
    have hb' : ∀ p ∈ aput s.entityMasks s.nextEntityID ([] : List Nat),
        p.1 < s.nextEntityID + 1 := by
      intro p hp
      rw [hput] at hp
      rcases List.mem_cons.mp hp with hp | hp
      · subst hp
        simp
      · exact Nat.lt_succ_of_lt (h2 p hp)
    have havail : (createEntity s).2.availableEntityIDs = [] := by
      rw [hs2]
      exact h1
    have hbound : ∀ p ∈ (createEntity s).2.entityMasks,
        p.1 < (createEntity s).2.nextEntityID := by
      rw [hs2]
      exact hb'
    have ht := ih _ havail hbound
    rw [hcn, ht, hs2]
    simp [liveCount, hput]
    omega

/-! ### Claim theorems -/

/-- C5 (failing-input evaluation): MAX_ENTITIES + 1 consecutive
`CreateEntity` calls on a fresh `EntityManager` all succeed and leave
MAX_ENTITIES + 1 = 10001 simultaneously live entity ids: `CreateEntity`
never consults MAX_ENTITIES (the constant is declared in ecs.h line 29 and
never used), so the live set exceeds the configured maximum, contradicting
the claim that it never does. -/
theorem c5_theorem :
    liveCount (createN (MAX_ENTITIES + 1) emInit) = MAX_ENTITIES + 1 ∧
    MAX_ENTITIES = 10000 := by
  constructor
  · have h := createN_len (MAX_ENTITIES + 1) emInit rfl
      (by intro p hp; simp [emInit] at hp)
    simpa [emInit, liveCount] using h
  · rfl

set_option maxRecDepth 8000 in
/-- C7 (failing-input evaluation): after the first 64 distinct component
types have been assigned ids 0..63, the first use of a 65th distinct type is
assigned id 64 = MAX_COMPONENTS — an index outside the bitset — and the
counter grows to 65, unchecked. `GetComponentTypeID` has no error channel at
all, so no capacity-exceeded error is reported at registration time,
contradicting the claim. -/
theorem c7_theorem :
    (registerTypes typeCounterInit (List.range MAX_COMPONENTS)).counter =
      MAX_COMPONENTS ∧
    afind (registerTypes typeCounterInit
      (List.range MAX_COMPONENTS)).table MAX_COMPONENTS = none ∧
    (getComponentTypeID (registerTypes typeCounterInit
      (List.range MAX_COMPONENTS)) MAX_COMPONENTS).1 = MAX_COMPONENTS ∧
    (getComponentTypeID (registerTypes typeCounterInit
      (List.range MAX_COMPONENTS)) MAX_COMPONENTS).2.counter =
      MAX_COMPONENTS + 1 := by
  refine ⟨?_, ?_, ?_, ?_⟩ <;> decide

/-- C2: for a live entity (within mask capacity), immediately after
`AddComponent` the mask bit tests true and `GetComponent` returns exactly the
instance `AddComponent` returned; immediately after `RemoveComponent` the bit
tests false and `GetComponent` signals absence (`nullptr`); and
`RemoveComponent` is a no-op when the component is not attached. -/
theorem c2_theorem (s : EMState) (e : EntityID) (cid : ComponentID)
    (m : List Nat) (_hcap : cid < MAX_COMPONENTS)
    (hm : afind s.entityMasks e = some m) :
    hasComponent (addComponent s e cid).2 e cid = some true ∧
    getComponent (addComponent s e cid).2 e cid =
      some (some (addComponent s e cid).1) ∧
    hasComponent (removeComponent s e cid) e cid = some false ∧
    getComponent (removeComponent s e cid) e cid = some none ∧
    (mtest cid m = false → removeComponent s e cid = s) := by
  have hmask : (addComponent s e cid).2.entityMasks =
      aput s.entityMasks e (mset cid m) := by
    simp [addComponent, hm]
  have hcomp : (addComponent s e cid).2.entityComponents =
      aput s.entityComponents e
        (aput ((afind s.entityComponents e).getD []) cid s.nextTag) := by
    simp [addComponent]
  have htag : (addComponent s e cid).1 = s.nextTag := rfl
  refine ⟨?_, ?_, ?_, ?_, ?_⟩
  · unfold hasComponent
    rw [hmask, afind_aput]
    simp [mtest_mset_self]
  · unfold getComponent
    rw [hmask, afind_aput]
    simp only [if_pos rfl]
    rw [htag, hcomp, afind_aput]
    simp [mtest_mset_self, afind_aput]
  · cases hb : mtest cid m with
    | false =>
      have hrem : removeComponent s e cid = s := by
        have h1 : aput s.entityMasks e m = s.entityMasks := aput_self hm
        simp [removeComponent, hm, hb, h1]
      rw [hrem]
      unfold hasComponent
      rw [hm]
      simp [hb]
    | true =>
      have hmask' : (removeComponent s e cid).entityMasks =
          aput s.entityMasks e (mreset cid m) := by
        simp [removeComponent, hm, hb]
      unfold hasComponent
      rw [hmask', afind_aput]
      simp [mtest_mreset_self]
  · cases hb : mtest cid m with
    | false =>
      have hrem : removeComponent s e cid = s := by
        have h1 : aput s.entityMasks e m = s.entityMasks := aput_self hm
        simp [removeComponent, hm, hb, h1]
      rw [hrem]
      unfold getComponent
      rw [hm]
      simp [hb]
    | true =>
      have hmask' : (removeComponent s e cid).entityMasks =
          aput s.entityMasks e (mreset cid m) := by
        simp [removeComponent, hm, hb]
      unfold getComponent
      rw [hmask', afind_aput]
      simp [mtest_mreset_self]
  · intro hb
    have h1 : aput s.entityMasks e m = s.entityMasks := aput_self hm
    simp [removeComponent, hm, hb, h1]

/-- C2 witness: the theorem applied to the entity created first on a fresh
manager, attaching component type 0. -/
theorem c2_witness :
    (0 < MAX_COMPONENTS ∧
      afind (createEntity emInit).2.entityMasks 0 = some []) ∧
    hasComponent (addComponent (createEntity emInit).2 0 0).2 0 0 =
      some true := by
  refine ⟨⟨by decide, by decide⟩, ?_⟩
  exact (c2_theorem (createEntity emInit).2 0 0 [] (by decide) (by decide)).1

/-- C4: `DestroyEntity` only records the id in the pending set — every other
state component is untouched, so `HasComponent`, `GetComponent` and
`GetComponentMask` answer exactly as before for every entity and type; a
second `DestroyEntity` on the pending id is a no-op; and only after
`ProcessDestructions` does `GetComponentMask` signal unknown-entity. -/
theorem c4_theorem (s : EMState) (e : EntityID) (m : List Nat)
    (hm : afind s.entityMasks e = some m) :
    ((destroyEntity s e).entityMasks = s.entityMasks ∧
     (destroyEntity s e).entityComponents = s.entityComponents ∧
     (destroyEntity s e).systems = s.systems ∧
     (destroyEntity s e).events = s.events ∧
     (destroyEntity s e).availableEntityIDs = s.availableEntityIDs ∧
     (destroyEntity s e).nextEntityID = s.nextEntityID) ∧
    (∀ e' cid, hasComponent (destroyEntity s e) e' cid = hasComponent s e' cid) ∧
    (∀ e' cid, getComponent (destroyEntity s e) e' cid = getComponent s e' cid) ∧
    (∀ e', getComponentMask (destroyEntity s e) e' = getComponentMask s e') ∧
    getComponentMask (destroyEntity s e) e = some m ∧
    destroyEntity (destroyEntity s e) e = destroyEntity s e ∧
    getComponentMask (processDestructions (destroyEntity s e)) e = none := by
  refine ⟨⟨rfl, rfl, rfl, rfl, rfl, rfl⟩, fun _ _ => rfl, fun _ _ => rfl,
    fun _ => rfl, hm, ?_, ?_⟩
  · unfold destroyEntity
    rw [setInsert_idem]
  · show afind ((destroyEntity s e).entitiesToDestroy.foldl destroyOne
      (destroyEntity s e)).entityMasks e = none
    apply flush_masks_none
    right
    exact setInsert_self e s.entitiesToDestroy

/-- C4 witness: the theorem applied to the entity created first on a fresh
manager. -/
theorem c4_witness :
    afind (createEntity emInit).2.entityMasks 0 = some [] ∧
    getComponentMask
      (processDestructions (destroyEntity (createEntity emInit).2 0)) 0 =
      none := by
  refine ⟨by decide, ?_⟩
  exact (c4_theorem (createEntity emInit).2 0 [] (by decide)).2.2.2.2.2.2

/-- C6 counterexample: on a fresh manager (entity ids 5 and 7 were never
created), `AddComponent` and `RemoveComponent` do not surface any
unknown-entity condition — they have no failure path at all — and silently
create mask entries for the unknown ids via `operator[]`: afterwards
`GetComponentMask` succeeds on both ids. This refutes the claim that every
operation on an unknown id surfaces the unknown-entity condition and that no
operation silently creates state. -/
theorem c6_counterexample :
    getComponentMask emInit 5 = none ∧
    getComponentMask emInit 7 = none ∧
    getComponentMask (addComponent emInit 5 0).2 5 = some [0] ∧
    getComponentMask (removeComponent emInit 7 0) 7 = some [] := by
  refine ⟨?_, ?_, ?_, ?_⟩ <;> decide

/-- C6 (amended): the read-only operations (`HasComponent`, `GetComponent`,
`GetComponentMask`) surface unknown-entity via the `at` exception, and
`GetComponent` fails only for an unknown entity — a missing component yields
the normal absent result; but `AddComponent` and `RemoveComponent` on an
unknown id surface nothing and silently create a mask entry for it. -/
theorem c6_theorem (s : EMState) (e : EntityID) (cid : ComponentID)
    (hm : afind s.entityMasks e = none) :
    hasComponent s e cid = none ∧
    getComponent s e cid = none ∧
    getComponentMask s e = none ∧
    getComponentMask (addComponent s e cid).2 e = some [cid] ∧
    getComponentMask (removeComponent s e cid) e = some [] ∧
    (∀ e' m', afind s.entityMasks e' = some m' → mtest cid m' = false →
      getComponent s e' cid = some none) := by
  refine ⟨?_, ?_, hm, ?_, ?_, ?_⟩
  · unfold hasComponent
    rw [hm]
    rfl
  · unfold getComponent
    rw [hm]
  · have hmask : (addComponent s e cid).2.entityMasks =
        aput s.entityMasks e (mset cid []) := by
      simp [addComponent, hm]
    unfold getComponentMask
    rw [hmask, afind_aput]
    simp [mset]
  · have hb : mtest cid (([] : List Nat)) = false := by simp [mtest]
    have hmask : (removeComponent s e cid).entityMasks =
        aput s.entityMasks e [] := by
      simp [removeComponent, hm, hb]
    unfold getComponentMask
    rw [hmask, afind_aput]
    simp
  · intro e' m' hm' hb
    unfold getComponent
    rw [hm']
    simp [hb]

/-- C6 witness: the theorem applied to the never-created id 5 on a fresh
manager, with the missing-component part instantiated on a live entity. -/
theorem c6_witness :
    afind emInit.entityMasks 5 = none ∧
    getComponentMask (addComponent emInit 5 0).2 5 = some [0] := by
  refine ⟨by decide, ?_⟩
  exact (c6_theorem emInit 5 0 (by decide)).2.2.2.1

/-- C3 (failing-input evaluation): register a system requiring component 0,
create entity 0, attach component 0 (hooks: system init, component init,
entity-added), destroy entity 0 and flush. The flush removes the entity from
the system (firing the entity-removed hook), erases its components and mask,
recycles the id and clears the pending set — but the event log shows the
component's `Finalize` hook never fired, although the component was
destroyed: `ProcessDestructions` erases `m_entityComponents[entity]` without
calling `Finalize` (only `RemoveComponent` calls it), contradicting the claim
and the documented contract of `Component::Finalize`. -/
theorem c3_theorem :
    (processDestructions (destroyEntity (addComponent
        (createEntity (registerSystem emInit 0 [0])).2 0 0).2 0)).events =
      [Event.sysInit 0, Event.init 0 0 0, Event.added 0 0,
       Event.removed 0 0] ∧
    (processDestructions (destroyEntity (addComponent
        (createEntity (registerSystem emInit 0 [0])).2 0 0).2 0)).events.count
      (Event.finalize 0 0 0) = 0 ∧
    afind (processDestructions (destroyEntity (addComponent
        (createEntity (registerSystem emInit 0 [0])).2 0 0).2
        0)).entityComponents 0 = none ∧
    getComponentMask (processDestructions (destroyEntity (addComponent
        (createEntity (registerSystem emInit 0 [0])).2 0 0).2 0)) 0 = none ∧
    (processDestructions (destroyEntity (addComponent
        (createEntity (registerSystem emInit 0 [0])).2 0 0).2
        0)).availableEntityIDs = [0] ∧
    (processDestructions (destroyEntity (addComponent
        (createEntity (registerSystem emInit 0 [0])).2 0 0).2
        0)).entitiesToDestroy = [] := by
  refine ⟨?_, ?_, ?_, ?_, ?_, ?_⟩ <;> decide

/-- C9 (failing-input evaluation): one system requiring component 0; entity 0
attaches component 0 (subscribed, entity-added fires once) and then attaches
component 1 while still satisfying the requirement. The subscriber set is
undisturbed (still exactly the singleton), but `System::AddEntity` calls
`OnEntityAdded` unconditionally (unlike `RemoveEntity`, which guards its
hook), so the entity-added hook fires a second time, contradicting the claim
that it fires exactly once per unsubscribed-to-subscribed transition. -/
theorem c9_theorem :
    (addComponent (addComponent
        (createEntity (registerSystem emInit 0 [0])).2 0 0).2 0 1).2.events.count
      (Event.added 0 0) = 2 ∧
    afind (addComponent (addComponent
        (createEntity (registerSystem emInit 0 [0])).2 0 0).2 0 1).2.systems 0 =
      some { req := [0], entities := [0], active := true } := by
  refine ⟨?_, ?_⟩ <;> decide

/-- C1 counterexample, two parts. (a) Register a system with an empty
required mask, then create an entity: the entity is live with the empty mask,
which is a superset of the empty requirement, yet it is not in the system's
subscriber set, because `CreateEntity` performs no subscription
re-evaluation. (b) Outside the documented caller contract, attaching to the
never-created id 5 silently makes it live and subscribed; after six creations
`CreateEntity` hands out id 5 again and resets its mask, leaving a live
entity subscribed to a system whose requirement its mask no longer
satisfies. Both refute the claimed equivalence as stated. -/
theorem c1_counterexample :
    (getComponentMask (createEntity (registerSystem emInit 0 [])).2 0 =
        some [] ∧
      maskSatisfies [] [] = true ∧
      afind (createEntity (registerSystem emInit 0 [])).2.systems 0 =
        some { req := [], entities := [], active := true }) ∧
    (getComponentMask
        (createN 6 (addComponent (registerSystem emInit 0 [0]) 5 0).2) 5 =
        some [] ∧
      maskSatisfies [] [0] = false ∧
      afind (createN 6 (addComponent
          (registerSystem emInit 0 [0]) 5 0).2).systems 0 =
        some { req := [0], entities := [5], active := true }) := by
  refine ⟨⟨?_, ?_, ?_⟩, ⟨?_, ?_, ?_⟩⟩ <;> decide

/-- C8 counterexample: register system-type 0 and then system-type 1, both
active. `UpdateSystems` iterates the `std::unordered_map` `m_systems`, whose
element list (in the modelled GCC/Clang hash tables) holds later insertions
first, so `Update` is invoked on system 1 before system 0 — not in
registration order [0, 1] as the claim states. -/
theorem c8_counterexample :
    updateSystems (registerSystem (registerSystem emInit 0 []) 1 []) =
      [1, 0] ∧
    ([1, 0] : List SystemID) ≠ [0, 1] := by
  refine ⟨?_, ?_⟩ <;> decide

theorem count_active_filterMap_zero (l : List (SystemID × Sys)) (sid : SystemID)
    (h : sid ∉ l.map Prod.fst) :
    (l.filterMap (fun p => if p.2.active then some p.1 else none)).count sid =
      0 := by
  induction l with
  | nil => rfl
  | cons p t ih =>
    obtain ⟨k, sy⟩ := p
    simp only [List.map_cons, List.mem_cons] at h
    push_neg at h
    obtain ⟨hk, ht⟩ := h
    cases ha : sy.active with
    | false => simpa [List.filterMap_cons, ha] using ih ht
    | true =>
      simp only [List.filterMap_cons, ha, if_true]
      rw [List.count_cons]
      simp [Ne.symm hk, ih ht]

theorem count_active_filterMap (l : List (SystemID × Sys)) (sid : SystemID)
    (sy : Sys) (hnd : (l.map Prod.fst).Nodup) (hmem : (sid, sy) ∈ l) :
    (l.filterMap (fun p => if p.2.active then some p.1 else none)).count sid =
      if sy.active then 1 else 0 := by
  induction l with
  | nil => simp at hmem
  | cons p t ih =>
    obtain ⟨k, y⟩ := p
    simp only [List.map_cons, List.nodup_cons] at hnd
    rcases List.mem_cons.mp hmem with hh | hh
    · injection hh with h1 h2
      subst h1; subst h2
      have hz := count_active_filterMap_zero t sid hnd.1
      cases ha : sy.active with
      | false => simpa [List.filterMap_cons, ha] using hz
      | true =>
        simp only [List.filterMap_cons, ha, if_true]
        rw [List.count_cons]
        simp [hz]
    · have hsidt : sid ∈ t.map Prod.fst :=
        List.mem_map.mpr ⟨(sid, sy), hh, rfl⟩
      have hk : ¬ sid = k := by
        intro he
        subst he
        exact hnd.1 hsidt
      cases ha : y.active with
      | false => simpa [List.filterMap_cons, ha] using ih hnd.2 hh
      | true =>
        simp only [List.filterMap_cons, ha, if_true]
        rw [List.count_cons]
        simp [Ne.symm hk, ih hnd.2 hh]

/-- C8 (amended): `UpdateSystems` invokes `Update` exactly once on every
active registered system and never on an inactive one, and `RenderSystems`
does the same for `Render`; the registration-order part of the claim is
refuted by the counterexample (the unordered container imposes no such
order). -/
theorem c8_theorem (s : EMState) (sid : SystemID) (sy : Sys)
    (hnd : (s.systems.map Prod.fst).Nodup) (hmem : (sid, sy) ∈ s.systems) :
    (updateSystems s).count sid = (if sy.active then 1 else 0) ∧
    (renderSystems s).count sid = (if sy.active then 1 else 0) :=
  ⟨count_active_filterMap s.systems sid sy hnd hmem,
   count_active_filterMap s.systems sid sy hnd hmem⟩

/-- C8 witness: two registered systems with system 0 deactivated; `Update` is
not invoked on it and is invoked exactly once on the active system 1. -/
theorem c8_witness :
    (((setSystemActive (registerSystem (registerSystem emInit 0 []) 1 [])
        0 false).systems.map Prod.fst).Nodup ∧
      (0, { req := [], entities := [], active := false }) ∈
        (setSystemActive (registerSystem (registerSystem emInit 0 []) 1 [])
          0 false).systems) ∧
    (updateSystems (setSystemActive
        (registerSystem (registerSystem emInit 0 []) 1 []) 0 false)).count 0 =
      0 := by
  refine ⟨⟨by decide, by decide⟩, ?_⟩
  have h := (c8_theorem
    (setSystemActive (registerSystem (registerSystem emInit 0 []) 1 []) 0 false)
    0 { req := [], entities := [], active := false }
    (by decide) (by decide)).1
  simpa using h

theorem count_removed_filterMap_zero (l : List (SystemID × Sys))
    (sid : SystemID) (e x : EntityID)
    (h : ∀ sy : Sys, (sid, sy) ∈ l → e ∉ sy.entities) :
    (l.filterMap (fun p => if (sysRemoveEntity p.2 x).2 then
        some (Event.removed p.1 x) else none)).count (Event.removed sid e) =
      0 := by
  induction l with
  | nil => rfl
  | cons p t ih =>
    obtain ⟨k, sy⟩ := p
    have ht : ∀ sy', (sid, sy') ∈ t → e ∉ sy'.entities :=
      fun sy' hm => h sy' (List.mem_cons_of_mem _ hm)
    cases hfire : (sysRemoveEntity sy x).2 with
    | false => simpa [List.filterMap_cons, hfire] using ih ht
    | true =>
      have hne : Event.removed sid e ≠ Event.removed k x := by
        intro heq
        injection heq with h1 h2
        subst h1; subst h2
        have hx : e ∈ sy.entities := by
          simpa [sysRemoveEntity] using hfire
        exact h sy (List.mem_cons_self _ _) hx
      simp only [List.filterMap_cons, hfire, if_true]
      have hbz : (Event.removed k x == Event.removed sid e) = false := by
        rw [beq_eq_false_iff_ne]
        exact hne.symm
      rw [List.count_cons, hbz]
      simp [ih ht]

theorem flush_removed_count (pend : List EntityID) :
    ∀ (s : EMState) (sid : SystemID) (e : EntityID),
    (∀ sy : Sys, (sid, sy) ∈ s.systems → e ∉ sy.entities) →
    (pend.foldl destroyOne s).events.count (Event.removed sid e) =
      s.events.count (Event.removed sid e) := by
  induction pend with
  | nil =>
    intro s sid e _
    rfl
  | cons x xs ih =>
    intro s sid e h
    simp only [List.foldl_cons]
    have hpres : ∀ sy' : Sys, (sid, sy') ∈ (destroyOne s x).systems →
        e ∉ sy'.entities := by
      intro sy' hmem'
      have hsys : (destroyOne s x).systems =
          s.systems.map (fun p => (p.1, (sysRemoveEntity p.2 x).1)) := rfl
      rw [hsys] at hmem'
      obtain ⟨p, hp, heq⟩ := List.mem_map.mp hmem'
      have hk : p.1 = sid := congrArg Prod.fst heq
      have hv : (sysRemoveEntity p.2 x).1 = sy' := congrArg Prod.snd heq
      intro hmem''
      rw [← hv] at hmem''
      have he2 : e ∈ p.2.entities := (mem_setErase.mp hmem'').1
      have hp2 : (sid, p.2) ∈ s.systems := by
        rw [← hk]
        exact hp
      exact h p.2 hp2 he2
    have hstep : (destroyOne s x).events.count (Event.removed sid e) =
        s.events.count (Event.removed sid e) := by
      have hev : (destroyOne s x).events = s.events ++
          s.systems.filterMap (fun p => if (sysRemoveEntity p.2 x).2 then
            some (Event.removed p.1 x) else none) := rfl
      rw [hev, List.count_append,
        count_removed_filterMap_zero s.systems sid e x h]
      exact Nat.add_zero _
    rw [ih _ sid e hpres, hstep]

/-- C10: `System::RemoveEntity` fires `OnEntityRemoved` exactly when the
entity was in the subscriber set (so at most once per system per removal),
and a flush adds no entity-removed event for a system the entity was not
subscribed to, even though `ProcessDestructions` calls `RemoveEntity` on
every registered system. -/
theorem c10_theorem :
    (∀ (sy : Sys) (e : EntityID),
      (sysRemoveEntity sy e).2 = true ↔ e ∈ sy.entities) ∧
    (∀ (s : EMState) (sid : SystemID) (e : EntityID),
      (∀ sy : Sys, (sid, sy) ∈ s.systems → e ∉ sy.entities) →
      (processDestructions s).events.count (Event.removed sid e) =
        s.events.count (Event.removed sid e)) := by
  constructor
  · intro sy e
    simp [sysRemoveEntity]
  · intro s sid e h
    have hev : (processDestructions s).events =
        (s.entitiesToDestroy.foldl destroyOne s).events := rfl
    rw [hev]
    exact flush_removed_count s.entitiesToDestroy s sid e h

/-- C10 witness: entity 0 is live but not subscribed to the registered system
(it satisfies nothing of the requirement); flushing its destruction calls
`RemoveEntity` on that system yet fires no entity-removed event. -/
theorem c10_witness :
    (destroyEntity (createEntity (registerSystem emInit 0 [0])).2 0).systems =
      [(0, { req := [0], entities := [], active := true })] ∧
    (processDestructions (destroyEntity (createEntity
        (registerSystem emInit 0 [0])).2 0)).events.count (Event.removed 0 0) =
      (destroyEntity (createEntity
        (registerSystem emInit 0 [0])).2 0).events.count (Event.removed 0 0) := by
  constructor
  · decide
  · apply c10_theorem.2
    intro sy hmem
    have hsys : (destroyEntity (createEntity
        (registerSystem emInit 0 [0])).2 0).systems =
        [(0, { req := [0], entities := [], active := true })] := by decide
    rw [hsys] at hmem
    have h2 := List.mem_singleton.mp hmem
    injection h2 with h2a h2b
    rw [h2b]
    simp

/-! ### Characterisation of the destruction flush -/

theorem fold_destroy_next (pend : List EntityID) : ∀ s : EMState,
    (pend.foldl destroyOne s).nextEntityID = s.nextEntityID := by
  induction pend with
  | nil => intro s; rfl
  | cons x xs ih =>
    intro s
    simp only [List.foldl_cons]
    rw [ih]
    rfl

theorem fold_destroy_avail (pend : List EntityID) : ∀ s : EMState,
    (pend.foldl destroyOne s).availableEntityIDs =
      s.availableEntityIDs ++ pend := by
  induction pend with
  | nil => intro s; simp
  | cons x xs ih =>
    intro s
    simp only [List.foldl_cons]
    rw [ih]
    show (s.availableEntityIDs ++ [x]) ++ xs = s.availableEntityIDs ++ x :: xs
    simp

theorem fold_destroy_masks (pend : List EntityID) : ∀ (s : EMState) (e : EntityID),
    afind (pend.foldl destroyOne s).entityMasks e =
      if e ∈ pend then none else afind s.entityMasks e := by
  induction pend with
  | nil => intro s e; simp
  | cons x xs ih =>
    intro s e
    simp only [List.foldl_cons]
    rw [ih]
    have hde : (destroyOne s x).entityMasks = aerase s.entityMasks x := rfl
    by_cases hex : e ∈ xs
    · simp [hex]
    · simp only [hex, if_false]
      rw [hde]
      by_cases hx : e = x
      · subst hx
        simp [afind_aerase_self]
      · rw [afind_aerase_ne _ _ _ hx]
        simp [List.mem_cons, hx, hex]

theorem fold_destroy_masks_mem (pend : List EntityID) :
    ∀ (s : EMState) (p : EntityID × List Nat),
    p ∈ (pend.foldl destroyOne s).entityMasks → p ∈ s.entityMasks := by
  induction pend with
  | nil => intro s p hp; exact hp
  | cons x xs ih =>
    intro s p hp
    simp only [List.foldl_cons] at hp
    exact mem_aerase (ih _ p hp)

theorem fold_destroy_ndk (pend : List EntityID) : ∀ s : EMState,
    (s.entityMasks.map Prod.fst).Nodup →
    ((pend.foldl destroyOne s).entityMasks.map Prod.fst).Nodup := by
  induction pend with
  | nil => intro s h; exact h
  | cons x xs ih =>
    intro s h
    simp only [List.foldl_cons]
    exact ih _ (ndk_aerase x h)

theorem fold_destroy_systems (pend : List EntityID) :
    ∀ (s : EMState) (sid : SystemID) (sy' : Sys),
    (sid, sy') ∈ (pend.foldl destroyOne s).systems →
    ∃ sy : Sys, (sid, sy) ∈ s.systems ∧ sy'.req = sy.req ∧
      (∀ e, e ∈ sy'.entities ↔ e ∈ sy.entities ∧ e ∉ pend) := by
  induction pend with
  | nil =>
    intro s sid sy' hmem
    exact ⟨sy', hmem, rfl, fun e => by simp⟩
  | cons x xs ih =>
    intro s sid sy' hmem
    simp only [List.foldl_cons] at hmem
    obtain ⟨syMid, hmemMid, hreq, hiff⟩ := ih _ sid sy' hmem
    have hsys : (destroyOne s x).systems =
        s.systems.map (fun p => (p.1, (sysRemoveEntity p.2 x).1)) := rfl
    rw [hsys] at hmemMid
    obtain ⟨p, hp, heq⟩ := List.mem_map.mp hmemMid
    have hk : p.1 = sid := congrArg Prod.fst heq
    have hv : (sysRemoveEntity p.2 x).1 = syMid := congrArg Prod.snd heq
    refine ⟨p.2, ?_, ?_, ?_⟩
    · rw [← hk]
      exact hp
    · rw [hreq, ← hv]
      rfl
    · intro e
      rw [hiff e, ← hv]
      constructor
      · rintro ⟨hmid, hnxs⟩
        obtain ⟨hpe, hne⟩ := mem_setErase.mp hmid
        refine ⟨hpe, ?_⟩
        intro hc
        rcases List.mem_cons.mp hc with hc | hc
        · exact hne hc
        · exact hnxs hc
      · rintro ⟨hpe, hnx⟩
        refine ⟨mem_setErase.mpr ⟨hpe, ?_⟩, ?_⟩
        · intro hc
          exact hnx (by simp [hc])
        · intro hc
          exact hnx (List.mem_cons_of_mem _ hc)

/-! ### Preservation of the reachability invariant -/

theorem inv_init : InvFull emInit := by
  refine ⟨?_, ?_, ?_, ?_, ?_, ?_, ?_, ?_, ?_, ?_, ?_⟩ <;> simp [emInit]

theorem inv_register (s : EMState) (sid : SystemID) (req : List Nat)
    (h : InvFull s) : InvFull (registerSystem s sid req) := by
  have hsys : (registerSystem s sid req).systems = aput s.systems sid
      { req := req,
        entities := (s.entityMasks.filter
          (fun p => maskSatisfies p.2 req)).map (fun p => p.1),
        active := true } := rfl
  refine ⟨h.ndkMasks, ?_, ?_, h.poolDead, ?_, h.poolNodup, h.keysBound,
    h.poolBound, h.pendBound, h.pendLive, h.pendNodup⟩
  · -- sound
    intro sid' sy' hmem e he
    rw [hsys] at hmem
    rcases mem_aput hmem with heq | hold
    · injection heq with h1 h2
      subst h1
      subst h2
      obtain ⟨p, hpf, hpe⟩ := List.mem_map.mp he
      obtain ⟨hp, hps⟩ := List.mem_filter.mp hpf
      have : afind s.entityMasks e = some p.2 := by
        apply afind_of_mem_ndk h.ndkMasks
        rw [← hpe]
        exact hp
      exact ⟨p.2, this, by simpa using hps⟩
    · exact h.sound sid' sy' hold e he
  · -- complete
    intro sid' sy' hmem hreq e m hfind hsat
    rw [hsys] at hmem
    rcases mem_aput hmem with heq | hold
    · injection heq with h1 h2
      subst h1
      subst h2
      apply List.mem_map.mpr
      refine ⟨(e, m), ?_, rfl⟩
      apply List.mem_filter.mpr
      exact ⟨mem_of_afind hfind, by simpa using hsat⟩
    · exact h.complete sid' sy' hold hreq e m hfind hsat
  · -- poolFree
    intro x hx sid' sy' hmem
    rw [hsys] at hmem
    rcases mem_aput hmem with heq | hold
    · injection heq with h1 h2
      subst h1
      subst h2
      intro hc
      obtain ⟨p, hpf, hpe⟩ := List.mem_map.mp hc
      obtain ⟨hp, _⟩ := List.mem_filter.mp hpf
      have hkey : x ∈ s.entityMasks.map Prod.fst := by
        apply List.mem_map.mpr
        exact ⟨p, hp, hpe⟩
      exact afind_eq_none.mp (h.poolDead x hx) hkey
    · exact h.poolFree x hx sid' sy' hold

theorem inv_destroy (s : EMState) (e : EntityID) (h : InvFull s)
    (he : (afind s.entityMasks e).isSome) : InvFull (destroyEntity s e) := by
  obtain ⟨m0, hm0⟩ := Option.isSome_iff_exists.mp he
  refine ⟨h.ndkMasks, h.sound, h.complete, h.poolDead, h.poolFree,
    h.poolNodup, h.keysBound, h.poolBound, ?_, ?_, ?_⟩
  · -- pendBound
    intro x hx
    rcases mem_setInsert.mp hx with hx | hx
    · subst hx
      exact h.keysBound (x, m0) (mem_of_afind hm0)
    · exact h.pendBound x hx
  · -- pendLive
    intro x hx
    rcases mem_setInsert.mp hx with hx | hx
    · subst hx
      exact he
    · exact h.pendLive x hx
  · -- pendNodup
    exact nodup_setInsert e h.pendNodup

theorem inv_create (s : EMState) (h : InvFull s) :
    InvFull (createEntity s).2 := by
  cases hava : s.availableEntityIDs with
  | cons id rest =>
    have ht : (createEntity s).2 =
        { s with availableEntityIDs := rest,
                 entityMasks := aput s.entityMasks id [],
                 entityComponents := aput s.entityComponents id [] } := by
      simp [createEntity, hava]
    have hiddead : afind s.entityMasks id = none :=
      h.poolDead id (by rw [hava]; simp)
    have hidfree : ∀ sid sy, (sid, sy) ∈ s.systems → id ∉ sy.entities :=
      fun sid sy hm => h.poolFree id (by rw [hava]; simp) sid sy hm
    have hidbound : id < s.nextEntityID :=
      h.poolBound id (by rw [hava]; simp)
    have hnodup : id ∉ rest ∧ rest.Nodup := by
      have := h.poolNodup
      rw [hava] at this
      exact List.nodup_cons.mp this
    rw [ht]
    refine ⟨ndk_aput id [] h.ndkMasks, ?_, ?_, ?_, ?_, hnodup.2, ?_, ?_, ?_,
      ?_, h.pendNodup⟩
    · -- sound
      intro sid sy hmem e he
      obtain ⟨m, hm, hs⟩ := h.sound sid sy hmem e he
      have hne : ¬ id = e := by
        intro hc
        subst hc
        exact hidfree sid sy hmem he
      rw [afind_aput]
      simp only [hne, if_false]
      exact ⟨m, hm, hs⟩
    · -- complete
      intro sid sy hmem hreq e m hfind hsat
      rw [afind_aput] at hfind
      by_cases hee : id = e
      · subst hee
        simp at hfind
        subst hfind
        exact absurd (maskSatisfies_nil_mask hsat) hreq
      · simp only [hee, if_false] at hfind
        exact h.complete sid sy hmem hreq e m hfind hsat
    · -- poolDead
      intro x hx
      have hxr : x ∈ s.availableEntityIDs := by rw [hava]; simp [hx]
      have hne : ¬ id = x := by
        intro hc
        subst hc
        exact hnodup.1 hx
      rw [afind_aput]
      simp only [hne, if_false]
      exact h.poolDead x hxr
    · -- poolFree
      intro x hx sid sy hmem
      exact h.poolFree x (by rw [hava]; simp [hx]) sid sy hmem
    · -- keysBound
      intro p hp
      rcases mem_aput hp with hp | hp
      · subst hp
        exact hidbound
      · exact h.keysBound p hp
    · -- poolBound
      intro x hx
      exact h.poolBound x (by rw [hava]; simp [hx])
    · -- pendBound
      exact h.pendBound
    · -- pendLive
      intro x hx
      rw [afind_aput]
      by_cases hee : id = x
      · simp [hee]
      · simp only [hee, if_false]
        exact h.pendLive x hx
  | nil =>
    have ht : (createEntity s).2 =
        { s with nextEntityID := s.nextEntityID + 1,
                 entityMasks := aput s.entityMasks s.nextEntityID [],
                 entityComponents := aput s.entityComponents s.nextEntityID [] } := by
      simp [createEntity, hava]
    have hiddead : afind s.entityMasks s.nextEntityID = none := by
      cases hf : afind s.entityMasks s.nextEntityID with
      | none => rfl
      | some m =>
        exact absurd (h.keysBound _ (mem_of_afind hf)) (lt_irrefl _)
    rw [ht]
    refine ⟨ndk_aput _ [] h.ndkMasks, ?_, ?_, ?_, ?_, ?_, ?_, ?_, ?_, ?_,
      h.pendNodup⟩
    · -- sound
      intro sid sy hmem e he
      obtain ⟨m, hm, hs⟩ := h.sound sid sy hmem e he
      have hne : ¬ s.nextEntityID = e := by
        intro hc
        have hb : e < s.nextEntityID := h.keysBound (e, m) (mem_of_afind hm)
        rw [hc] at hb
        exact absurd hb (lt_irrefl e)
      rw [afind_aput]
      simp only [hne, if_false]
      exact ⟨m, hm, hs⟩
    · -- complete
      intro sid sy hmem hreq e m hfind hsat
      rw [afind_aput] at hfind
      by_cases hee : s.nextEntityID = e
      · subst hee
        simp at hfind
        subst hfind
        exact absurd (maskSatisfies_nil_mask hsat) hreq
      · simp only [hee, if_false] at hfind
        exact h.complete sid sy hmem hreq e m hfind hsat
    · -- poolDead
      intro x hx
      rw [hava] at hx
      simp at hx
    · -- poolFree
      intro x hx
      rw [hava] at hx
      simp at hx
    · -- poolNodup
      rw [hava]
      exact List.nodup_nil
    · -- keysBound
      intro p hp
      rcases mem_aput hp with hp | hp
      · subst hp
        simp
      · exact Nat.lt_succ_of_lt (h.keysBound p hp)
    · -- poolBound
      intro x hx
      rw [hava] at hx
      simp at hx
    · -- pendBound
      intro x hx
      exact Nat.lt_succ_of_lt (h.pendBound x hx)
    · -- pendLive
      intro x hx
      rw [afind_aput]
      by_cases hee : s.nextEntityID = x
      · simp [hee]
      · simp only [hee, if_false]
        exact h.pendLive x hx

theorem inv_attach (s : EMState) (e : EntityID) (cid : ComponentID)
    (h : InvFull s) (he : (afind s.entityMasks e).isSome) :
    InvFull (addComponent s e cid).2 := by
  obtain ⟨m0, hm0⟩ := Option.isSome_iff_exists.mp he
  have hebound : e < s.nextEntityID := h.keysBound (e, m0) (mem_of_afind hm0)
  have ht : (addComponent s e cid).2 =
      { s with
        entityComponents := aput s.entityComponents e
          (aput ((afind s.entityComponents e).getD []) cid s.nextTag),
        entityMasks := aput s.entityMasks e (mset cid m0),
        systems := s.systems.map (fun p =>
          if maskSatisfies (mset cid m0) p.2.req then (p.1, (sysAddEntity p.2 e).1)
          else p),
        events := (s.events ++ [Event.init e cid s.nextTag]) ++
          s.systems.filterMap (fun p =>
            if maskSatisfies (mset cid m0) p.2.req then some (Event.added p.1 e)
            else none),
        nextTag := s.nextTag + 1 } := by
    simp [addComponent, hm0]
  have hmono : ∀ req : List Nat, maskSatisfies m0 req = true →
      maskSatisfies (mset cid m0) req = true := by
    intro req hreq
    apply maskSatisfies_mono _ hreq
    intro x hx
    exact mem_mset.mpr (Or.inr hx)
  rw [ht]
  refine ⟨ndk_aput _ _ h.ndkMasks, ?_, ?_, ?_, ?_, h.poolNodup, ?_,
    h.poolBound, h.pendBound, ?_, h.pendNodup⟩
  · -- sound
    intro sid sy' hmem e' he'
    obtain ⟨p, hp, heq⟩ := List.mem_map.mp hmem
    by_cases hsat : maskSatisfies (mset cid m0) p.2.req = true
    · rw [if_pos hsat] at heq
      have hk : p.1 = sid := congrArg Prod.fst heq
      have hv : (sysAddEntity p.2 e).1 = sy' := congrArg Prod.snd heq
      have hreq : sy'.req = p.2.req := by rw [← hv]; rfl
      have hent : sy'.entities = setInsert e p.2.entities := by rw [← hv]; rfl
      by_cases hee : e' = e
      · subst hee
        refine ⟨mset cid m0, ?_, ?_⟩
        · rw [afind_aput]
          simp
        · rw [hreq]
          exact hsat
      · have he'' : e' ∈ p.2.entities := by
          rw [hent] at he'
          rcases mem_setInsert.mp he' with hc | hc
          · exact absurd hc hee
          · exact hc
        obtain ⟨m, hm, hs⟩ := h.sound sid p.2 (by rw [← hk]; exact hp) e' he''
        refine ⟨m, ?_, ?_⟩
        · rw [afind_aput]
          have hne : ¬ e = e' := fun hc => hee hc.symm
          simp only [hne, if_false]
          exact hm
        · rw [hreq]
          exact hs
    · rw [if_neg hsat] at heq
      have hk : p.1 = sid := congrArg Prod.fst heq
      have hv : p.2 = sy' := congrArg Prod.snd heq
      by_cases hee : e' = e
      · subst hee
        exfalso
        obtain ⟨m, hm, hs⟩ := h.sound sid p.2 (by rw [← hk]; exact hp) e'
          (by rw [hv]; exact he')
        rw [hm0] at hm
        injection hm with hmeq
        subst hmeq
        exact hsat (hmono _ hs)
      · obtain ⟨m, hm, hs⟩ := h.sound sid p.2 (by rw [← hk]; exact hp) e'
          (by rw [hv]; exact he')
        refine ⟨m, ?_, ?_⟩
        · rw [afind_aput]
          have hne : ¬ e = e' := fun hc => hee hc.symm
          simp only [hne, if_false]
          exact hm
        · rw [← hv]
          exact hs
  · -- complete
    intro sid sy' hmem hreq' e' m hfind hsat'
    obtain ⟨p, hp, heq⟩ := List.mem_map.mp hmem
    by_cases hsat : maskSatisfies (mset cid m0) p.2.req = true
    · rw [if_pos hsat] at heq
      have hk : p.1 = sid := congrArg Prod.fst heq
      have hv : (sysAddEntity p.2 e).1 = sy' := congrArg Prod.snd heq
      have hreq : sy'.req = p.2.req := by rw [← hv]; rfl
      have hent : sy'.entities = setInsert e p.2.entities := by rw [← hv]; rfl
      rw [hent]
      by_cases hee : e' = e
      · subst hee
        exact setInsert_self _ _
      · apply mem_setInsert.mpr
        right
        rw [afind_aput] at hfind
        have hne : ¬ e = e' := fun hc => hee hc.symm
        simp only [hne, if_false] at hfind
        rw [hreq] at hreq' hsat'
        exact h.complete sid p.2 (by rw [← hk]; exact hp) hreq' e' m hfind hsat'
    · rw [if_neg hsat] at heq
      have hk : p.1 = sid := congrArg Prod.fst heq
      have hv : p.2 = sy' := congrArg Prod.snd heq
      by_cases hee : e' = e
      · subst hee
        exfalso
        rw [afind_aput] at hfind
        simp only [if_pos rfl] at hfind
        injection hfind with hfeq
        rw [← hv] at hreq' hsat'
        rw [← hfeq] at hsat'
        exact hsat hsat'
      · rw [afind_aput] at hfind
        have hne : ¬ e = e' := fun hc => hee hc.symm
        simp only [hne, if_false] at hfind
        rw [← hv] at hreq' hsat' ⊢
        exact h.complete sid p.2 (by rw [← hk]; exact hp) hreq' e' m hfind hsat'
  · -- poolDead
    intro x hx
    have hxd := h.poolDead x hx
    have hne : ¬ e = x := by
      intro hc
      subst hc
      rw [hm0] at hxd
      exact Option.noConfusion hxd
    rw [afind_aput]
    simp only [hne, if_false]
    exact hxd
  · -- poolFree
    intro x hx sid sy' hmem
    obtain ⟨p, hp, heq⟩ := List.mem_map.mp hmem
    have hxd := h.poolDead x hx
    have hxe : x ≠ e := by
      intro hc
      subst hc
      rw [hm0] at hxd
      exact Option.noConfusion hxd
    by_cases hsat : maskSatisfies (mset cid m0) p.2.req = true
    · rw [if_pos hsat] at heq
      have hk : p.1 = sid := congrArg Prod.fst heq
      have hv : (sysAddEntity p.2 e).1 = sy' := congrArg Prod.snd heq
      have hent : sy'.entities = setInsert e p.2.entities := by rw [← hv]; rfl
      rw [hent]
      intro hc
      rcases mem_setInsert.mp hc with hc | hc
      · exact hxe hc
      · exact h.poolFree x hx sid p.2 (by rw [← hk]; exact hp) hc
    · rw [if_neg hsat] at heq
      have hk : p.1 = sid := congrArg Prod.fst heq
      have hv : p.2 = sy' := congrArg Prod.snd heq
      rw [← hv]
      exact h.poolFree x hx sid p.2 (by rw [← hk]; exact hp)
  · -- keysBound
    intro p hp
    rcases mem_aput hp with hp | hp
    · subst hp
      exact hebound
    · exact h.keysBound p hp
  · -- pendLive
    intro x hx
    rw [afind_aput]
    by_cases hee : e = x
    · simp [hee]
    · simp only [hee, if_false]
      exact h.pendLive x hx

theorem inv_detach (s : EMState) (e : EntityID) (cid : ComponentID)
    (h : InvFull s) (he : (afind s.entityMasks e).isSome) :
    InvFull (removeComponent s e cid) := by
  obtain ⟨m0, hm0⟩ := Option.isSome_iff_exists.mp he
  have hebound : e < s.nextEntityID := h.keysBound (e, m0) (mem_of_afind hm0)
  cases hb : mtest cid m0 with
  | false =>
    have hrem : removeComponent s e cid = s := by
      have h1 : aput s.entityMasks e m0 = s.entityMasks := aput_self hm0
      simp [removeComponent, hm0, hb, h1]
    rw [hrem]
    exact h
  | true =>
    have ht : removeComponent s e cid =
        { s with
          entityComponents := aput s.entityComponents e
            (aerase ((afind s.entityComponents e).getD []) cid),
          entityMasks := aput s.entityMasks e (mreset cid m0),
          systems := s.systems.map (fun p =>
            if maskSatisfies (mreset cid m0) p.2.req then p
            else (p.1, (sysRemoveEntity p.2 e).1)),
          events := (s.events ++ [Event.finalize e cid
              ((afind ((afind s.entityComponents e).getD []) cid).getD 0)]) ++
            s.systems.filterMap (fun p =>
              if maskSatisfies (mreset cid m0) p.2.req then none
              else if (sysRemoveEntity p.2 e).2 then some (Event.removed p.1 e)
              else none) } := by
      simp [removeComponent, hm0, hb]
    have hmono : ∀ req : List Nat, maskSatisfies (mreset cid m0) req = true →
        maskSatisfies m0 req = true := by
      intro req hreq
      apply maskSatisfies_mono _ hreq
      intro x hx
      exact (mem_mreset.mp hx).1
    rw [ht]
    refine ⟨ndk_aput _ _ h.ndkMasks, ?_, ?_, ?_, ?_, h.poolNodup, ?_,
      h.poolBound, h.pendBound, ?_, h.pendNodup⟩
    · -- sound
      intro sid sy' hmem e' he'
      obtain ⟨p, hp, heq⟩ := List.mem_map.mp hmem
      by_cases hsat : maskSatisfies (mreset cid m0) p.2.req = true
      · rw [if_pos hsat] at heq
        have hk : p.1 = sid := congrArg Prod.fst heq
        have hv : p.2 = sy' := congrArg Prod.snd heq
        by_cases hee : e' = e
        · subst hee
          refine ⟨mreset cid m0, ?_, ?_⟩
          · rw [afind_aput]
            simp
          · rw [← hv]
            exact hsat
        · obtain ⟨m, hm, hs⟩ := h.sound sid p.2 (by rw [← hk]; exact hp) e'
            (by rw [hv]; exact he')
          refine ⟨m, ?_, ?_⟩
          · rw [afind_aput]
            have hne : ¬ e = e' := fun hc => hee hc.symm
            simp only [hne, if_false]
            exact hm
          · rw [← hv]
            exact hs
      · rw [if_neg hsat] at heq
        have hk : p.1 = sid := congrArg Prod.fst heq
        have hv : (sysRemoveEntity p.2 e).1 = sy' := congrArg Prod.snd heq
        have hreq : sy'.req = p.2.req := by rw [← hv]; rfl
        have hent : sy'.entities = setErase e p.2.entities := by rw [← hv]; rfl
        rw [hent] at he'
        obtain ⟨he'', hne⟩ := mem_setErase.mp he'
        obtain ⟨m, hm, hs⟩ := h.sound sid p.2 (by rw [← hk]; exact hp) e' he''
        refine ⟨m, ?_, ?_⟩
        · rw [afind_aput]
          have hne' : ¬ e = e' := fun hc => hne hc.symm
          simp only [hne', if_false]
          exact hm
        · rw [hreq]
          exact hs
    · -- complete
      intro sid sy' hmem hreq' e' m hfind hsat'
      obtain ⟨p, hp, heq⟩ := List.mem_map.mp hmem
      by_cases hsat : maskSatisfies (mreset cid m0) p.2.req = true
      · rw [if_pos hsat] at heq
        have hk : p.1 = sid := congrArg Prod.fst heq
        have hv : p.2 = sy' := congrArg Prod.snd heq
        by_cases hee : e' = e
        · subst hee
          rw [← hv] at hreq' ⊢
          have hm0sat : maskSatisfies m0 p.2.req = true := hmono _ hsat
          exact h.complete sid p.2 (by rw [← hk]; exact hp) hreq' e' m0 hm0 hm0sat
        · rw [afind_aput] at hfind
          have hne : ¬ e = e' := fun hc => hee hc.symm
          simp only [hne, if_false] at hfind
          rw [← hv] at hreq' hsat' ⊢
          exact h.complete sid p.2 (by rw [← hk]; exact hp) hreq' e' m hfind hsat'
      · rw [if_neg hsat] at heq
        have hk : p.1 = sid := congrArg Prod.fst heq
        have hv : (sysRemoveEntity p.2 e).1 = sy' := congrArg Prod.snd heq
        have hreq : sy'.req = p.2.req := by rw [← hv]; rfl
        have hent : sy'.entities = setErase e p.2.entities := by rw [← hv]; rfl
        rw [hent]
        by_cases hee : e' = e
        · subst hee
          exfalso
          rw [afind_aput] at hfind
          simp only [if_pos rfl] at hfind
          injection hfind with hfeq
          rw [hreq] at hsat'
          rw [← hfeq] at hsat'
          exact hsat hsat'
        · rw [afind_aput] at hfind
          have hne : ¬ e = e' := fun hc => hee hc.symm
          simp only [hne, if_false] at hfind
          rw [hreq] at hreq' hsat'
          have he'' := h.complete sid p.2 (by rw [← hk]; exact hp) hreq' e' m
            hfind hsat'
          exact mem_setErase.mpr ⟨he'', hee⟩
    · -- poolDead
      intro x hx
      have hxd := h.poolDead x hx
      have hne : ¬ e = x := by
        intro hc
        subst hc
        rw [hm0] at hxd
        exact Option.noConfusion hxd
      rw [afind_aput]
      simp only [hne, if_false]
      exact hxd
    · -- poolFree
      intro x hx sid sy' hmem
      obtain ⟨p, hp, heq⟩ := List.mem_map.mp hmem
      by_cases hsat : maskSatisfies (mreset cid m0) p.2.req = true
      · rw [if_pos hsat] at heq
        have hk : p.1 = sid := congrArg Prod.fst heq
        have hv : p.2 = sy' := congrArg Prod.snd heq
        rw [← hv]
        exact h.poolFree x hx sid p.2 (by rw [← hk]; exact hp)
      · rw [if_neg hsat] at heq
        have hk : p.1 = sid := congrArg Prod.fst heq
        have hv : (sysRemoveEntity p.2 e).1 = sy' := congrArg Prod.snd heq
        have hent : sy'.entities = setErase e p.2.entities := by rw [← hv]; rfl
        rw [hent]
        intro hc
        exact h.poolFree x hx sid p.2 (by rw [← hk]; exact hp)
          (mem_setErase.mp hc).1
    · -- keysBound
      intro p hp
      rcases mem_aput hp with hp | hp
      · subst hp
        exact hebound
      · exact h.keysBound p hp
    · -- pendLive
      intro x hx
      rw [afind_aput]
      by_cases hee : e = x
      · simp [hee]
      · simp only [hee, if_false]
        exact h.pendLive x hx

theorem inv_flush (s : EMState) (h : InvFull s) :
    InvFull (processDestructions s) := by
  refine ⟨?_, ?_, ?_, ?_, ?_, ?_, ?_, ?_, ?_, ?_, ?_⟩
  · -- ndkMasks
    exact fold_destroy_ndk _ _ h.ndkMasks
  · -- sound
    intro sid sy' hmem e he
    obtain ⟨sy, hm, hreq, hiff⟩ := fold_destroy_systems _ _ sid sy' hmem
    obtain ⟨hesy, hnp⟩ := (hiff e).mp he
    obtain ⟨m, hfind, hs⟩ := h.sound sid sy hm e hesy
    refine ⟨m, ?_, ?_⟩
    · show afind (s.entitiesToDestroy.foldl destroyOne s).entityMasks e = some m
      rw [fold_destroy_masks]
      simp only [hnp, if_false]
      exact hfind
    · rw [hreq]
      exact hs
  · -- complete
    intro sid sy' hmem hreq' e m hfind hsat
    obtain ⟨sy, hm, hreq, hiff⟩ := fold_destroy_systems _ _ sid sy' hmem
    have hfind' : afind (s.entitiesToDestroy.foldl destroyOne s).entityMasks e =
        some m := hfind
    rw [fold_destroy_masks] at hfind'
    by_cases hep : e ∈ s.entitiesToDestroy
    · simp [hep] at hfind'
    · simp only [hep, if_false] at hfind'
      rw [hreq] at hreq' hsat
      have he' := h.complete sid sy hm hreq' e m hfind' hsat
      exact (hiff e).mpr ⟨he', hep⟩
  · -- poolDead
    intro x hx
    have hx' : x ∈ s.availableEntityIDs ++ s.entitiesToDestroy := by
      rw [← fold_destroy_avail]
      exact hx
    show afind (s.entitiesToDestroy.foldl destroyOne s).entityMasks x = none
    rw [fold_destroy_masks]
    rcases List.mem_append.mp hx' with hx' | hx'
    · by_cases hp : x ∈ s.entitiesToDestroy
      · simp [hp]
      · simp only [hp, if_false]
        exact h.poolDead x hx'
    · simp [hx']
  · -- poolFree
    intro x hx sid sy' hmem
    have hx' : x ∈ s.availableEntityIDs ++ s.entitiesToDestroy := by
      rw [← fold_destroy_avail]
      exact hx
    obtain ⟨sy, hm, hreq, hiff⟩ := fold_destroy_systems _ _ sid sy' hmem
    intro hc
    obtain ⟨hsy, hnp⟩ := (hiff x).mp hc
    rcases List.mem_append.mp hx' with hx' | hx'
    · exact h.poolFree x hx' sid sy hm hsy
    · exact hnp hx'
  · -- poolNodup
    show (s.entitiesToDestroy.foldl destroyOne s).availableEntityIDs.Nodup
    rw [fold_destroy_avail]
    rw [List.nodup_append]
    refine ⟨h.poolNodup, h.pendNodup, ?_⟩
    intro a ha hpa
    have hd := h.poolDead a ha
    have hl := h.pendLive a hpa
    rw [hd] at hl
    simp at hl
  · -- keysBound
    intro p hp
    have hb := h.keysBound p (fold_destroy_masks_mem _ _ p hp)
    show p.1 < (s.entitiesToDestroy.foldl destroyOne s).nextEntityID
    rw [fold_destroy_next]
    exact hb
  · -- poolBound
    intro x hx
    have hx' : x ∈ s.availableEntityIDs ++ s.entitiesToDestroy := by
      rw [← fold_destroy_avail]
      exact hx
    show x < (s.entitiesToDestroy.foldl destroyOne s).nextEntityID
    rw [fold_destroy_next]
    rcases List.mem_append.mp hx' with hx' | hx'
    · exact h.poolBound x hx'
    · exact h.pendBound x hx'
  · -- pendBound
    intro x hx
    exact absurd hx (List.not_mem_nil x)
  · -- pendLive
    intro x hx
    exact absurd hx (List.not_mem_nil x)
  · -- pendNodup
    exact List.nodup_nil

theorem inv_applyOp (s : EMState) (op : Op) (h : InvFull s)
    (hl : opLegal s op = true) : InvFull (applyOp s op) := by
  cases op with
  | create => exact inv_create s h
  | destroy e =>
    exact inv_destroy s e h (by simpa [opLegal] using hl)
  | flush => exact inv_flush s h
  | attach e cid =>
    simp only [opLegal, Bool.and_eq_true] at hl
    exact inv_attach s e cid h hl.1
  | detach e cid =>
    simp only [opLegal, Bool.and_eq_true] at hl
    exact inv_detach s e cid h hl.1
  | register sid req => exact inv_register s sid req h

theorem inv_trace (ops : List Op) : ∀ s : EMState, InvFull s →
    legalTrace s ops = true → InvFull (ops.foldl applyOp s) := by
  induction ops with
  | nil =>
    intro s h _
    exact h
  | cons op rest ih =>
    intro s h hl
    simp only [legalTrace, Bool.and_eq_true] at hl
    simp only [List.foldl_cons]
    exact ih _ (inv_applyOp s op h hl.1) hl.2

/-- C1 (amended): under the documented caller contract, after every operation
sequence: every subscriber of every system is live with a mask that satisfies
the system's requirement; for systems with a nonempty requirement the
converse also holds (the equivalence of the claim); and immediately after any
system registration the full equivalence holds for the newly registered
system, its required mask empty or not. (The claim as stated fails for the
combination of an empty-mask system with a subsequent entity creation — see
the counterexample.) -/
theorem c1_theorem (ops : List Op) (h : legalTrace emInit ops = true) :
    (∀ sid sy, (sid, sy) ∈ (runOps ops).systems → ∀ e, e ∈ sy.entities →
      ∃ m, getComponentMask (runOps ops) e = some m ∧
        maskSatisfies m sy.req = true) ∧
    (∀ sid sy, (sid, sy) ∈ (runOps ops).systems → sy.req ≠ [] → ∀ e m,
      getComponentMask (runOps ops) e = some m →
      maskSatisfies m sy.req = true → e ∈ sy.entities) ∧
    (∀ sid req e m,
      getComponentMask (runOps (ops ++ [Op.register sid req])) e = some m →
      maskSatisfies m req = true →
      ∃ sy, afind (runOps (ops ++ [Op.register sid req])).systems sid =
          some sy ∧ sy.req = req ∧ e ∈ sy.entities) := by
  have hinv := inv_trace ops emInit inv_init h
  refine ⟨hinv.sound, hinv.complete, ?_⟩
  intro sid req e m hfind hsat
  have hrun : runOps (ops ++ [Op.register sid req]) =
      registerSystem (runOps ops) sid req := by
    show (ops ++ [Op.register sid req]).foldl applyOp emInit = _
    rw [List.foldl_append]
    rfl
  rw [hrun] at hfind ⊢
  have hfind' : afind (runOps ops).entityMasks e = some m := hfind
  refine ⟨{ req := req,
            entities := ((runOps ops).entityMasks.filter
              (fun p => maskSatisfies p.2 req)).map (fun p => p.1),
            active := true }, ?_, rfl, ?_⟩
  · show afind (aput (runOps ops).systems sid _) sid = _
    rw [afind_aput]
    simp
  · apply List.mem_map.mpr
    refine ⟨(e, m), ?_, rfl⟩
    apply List.mem_filter.mpr
    exact ⟨mem_of_afind hfind', by simpa using hsat⟩

/-- C1 witness: the legal trace that registers a system requiring component
type 0, creates entity 0 and attaches component type 0; the amended theorem's
completeness direction puts entity 0 in the subscriber set. -/
theorem c1_witness :
    legalTrace emInit [Op.register 0 [0], Op.create, Op.attach 0 0] = true ∧
    (0 : EntityID) ∈
      ({ req := [0], entities := [0], active := true } : Sys).entities := by
  refine ⟨by decide, ?_⟩
  exact (c1_theorem [Op.register 0 [0], Op.create, Op.attach 0 0]
    (by decide)).2.1 0 { req := [0], entities := [0], active := true }
    (by decide) (by decide) 0 [0] (by decide) (by decide)

end ECS
